import Mathlib

/-!
Shallow embedding of the model-configuration resolver in
`backend/src/core/models.ts`.

JavaScript objects used as string-keyed dictionaries are embedded as
association lists (`List (String × α)`); assignment keeps the position of
an existing key and appends a new one, matching JS property-enumeration
order.  JS truthiness on strings (`""` is falsy) and on the module cache
cell (`null` is falsy, every object — including `{}` — is truthy) is made
explicit.  Node's `fs`/`path`/`process` environment is a `FileSystem`
record; `readFileSync` throwing is an `Except.error`.  Filesystem side
effects are recorded in an explicit `FsOp` trace so that statements about
"no I/O after the first load" are expressible.

The JS string primitives used by the source (`trim`, `split`,
`startsWith`, `search(/\S/)`, truthiness) are defined structurally over
`List Char` so every definition evaluates by kernel reduction; for the
ASCII inputs relevant here JS's whitespace class coincides with
`Char.isWhitespace`.
-/

namespace Models

/-- JS `s.trim()` on the character list: drop whitespace from both ends. -/
def trim_chars (l : List Char) : List Char :=
  ((l.dropWhile (fun c => c.isWhitespace)).reverse.dropWhile
      (fun c => c.isWhitespace)).reverse

/-- JS `s.split(sep)` for a one-character separator: every occurrence
splits, empty fields are kept, the empty string yields `[[]]`. -/
def split_char (sep : Char) : List Char → List (List Char)
  | [] => [[]]
  | a :: rest =>
      let r := split_char sep rest
      if a == sep then [] :: r else (a :: r.headD []) :: r.tail

/-- JS `s.startsWith("#")`. -/
def starts_hash : List Char → Bool
  | [] => false
  | c :: _ => c == '#'

/-- JS `line.search(/\S/)`: index of the first non-whitespace character,
`-1` when the line is all whitespace. -/
def js_search_nonws (line : String) : Int :=
  match line.data.findIdx? (fun c => !c.isWhitespace) with
  | some i => (i : Int)
  | none => -1

/-- Lookup in a JS-object-as-dictionary: `m[k]`, `undefined` ↦ `none`. -/
def getKey {α : Type} : List (String × α) → String → Option α
  | [], _ => none
  | (k1, v1) :: rest, k => if k1 = k then some v1 else getKey rest k

/-- Assignment `m[k] = v` on a JS object: overwrite in place if the key is
present, append otherwise (JS keeps enumeration order of existing keys). -/
def setKey {α : Type} : List (String × α) → String → α → List (String × α)
  | [], k, v => [(k, v)]
  | (k1, v1) :: rest, k, v =>
      if k1 = k then (k, v) :: rest else (k1, v1) :: setKey rest k v

/-- The `model_cfg` interface: sector name ↦ (provider name ↦ model name). -/
abbrev model_cfg : Type := List (String × List (String × String))

/-- Assignment `obj[cur_sec][key] = val` where `obj[cur_sec]` is already an object
(always the case at the one call site in `parse_yaml`). -/
def setSub (m : model_cfg) (sec key val : String) : model_cfg :=
  setKey m sec (setKey ((getKey m sec).getD []) key val)

/-- JS `a || b` for `a : string | undefined`: `undefined` and `""` are
falsy, every other string is returned as-is. -/
def js_or (a : Option String) (b : String) : String :=
  match a with
  | some v => if v.data.isEmpty then b else v
  | none => b

/-- Optional chaining `cfg[sector]?.[provider]` through two levels. -/
def lookup2 (m : model_cfg) (sector provider : String) : Option String :=
  (getKey m sector).bind (fun sec => getKey sec provider)

/-- One iteration of the `for (const line of lines)` loop body of
`parse_yaml` (models.ts lines 46–60), acting on the state
`(obj, cur_sec)`.  `cur_sec : Option String` embeds `string | null`; the
JS truthiness test `cur_sec && val` is non-null together with
non-emptiness of both strings. -/
def parse_line (st : model_cfg × Option String) (line : String) :
    model_cfg × Option String :=
  let obj := st.1
  let cur := st.2
  let tc := trim_chars line.data
  if tc.isEmpty then st
  else if starts_hash tc then st
  else
    let indent := js_search_nonws line
    let parts := split_char ':' tc
    let key : String := ⟨parts.headD []⟩
    let valc := trim_chars (List.intercalate [':'] parts.tail)
    let val : String := ⟨valc⟩
    if indent == 0 && !valc.isEmpty then st
    else if indent == 0 then (setKey obj key [], some key)
    else
      match cur with
      | some sec =>
          if !sec.data.isEmpty && !valc.isEmpty then
            (setSub obj sec key val, cur)
          else st
      | none => st

/-- Folding the loop body over a list of lines. -/
def parse_lines (st : model_cfg × Option String) (L : List String) :
    model_cfg × Option String :=
  L.foldl parse_line st

/-- Embedding of `parse_yaml` (models.ts lines 42–62): split on newline, run the loop
from an empty object and no current section, return the object. -/
def parse_yaml (yml : String) : model_cfg :=
  (parse_lines ([], none)
      ((split_char '\n' yml.data).map (fun l => (⟨l⟩ : String)))).1

/-- Embedding of `get_defaults` (models.ts lines 64–100), in source order. -/
def get_defaults : model_cfg :=
  [ ("episodic",
      [ ("ollama", "nomic-embed-text"),
        ("openai", "text-embedding-3-small"),
        ("gemini", "gemini-embedding-001"),
        ("aws", "amazon.titan-embed-text-v2:0"),
        ("local", "all-MiniLM-L6-v2") ]),
    ("semantic",
      [ ("ollama", "nomic-embed-text"),
        ("openai", "text-embedding-3-small"),
        ("gemini", "gemini-embedding-001"),
        ("aws", "amazon.titan-embed-text-v2:0"),
        ("local", "all-MiniLM-L6-v2") ]),
    ("procedural",
      [ ("ollama", "nomic-embed-text"),
        ("openai", "text-embedding-3-small"),
        ("gemini", "gemini-embedding-001"),
        ("aws", "amazon.titan-embed-text-v2:0"),
        ("local", "all-MiniLM-L6-v2") ]),
    ("emotional",
      [ ("ollama", "nomic-embed-text"),
        ("openai", "text-embedding-3-small"),
        ("gemini", "gemini-embedding-001"),
        ("aws", "amazon.titan-embed-text-v2:0"),
        ("local", "all-MiniLM-L6-v2") ]),
    ("reflective",
      [ ("ollama", "nomic-embed-text"),
        ("openai", "text-embedding-3-large"),
        ("gemini", "gemini-embedding-001"),
        ("aws", "amazon.titan-embed-text-v2:0"),
        ("local", "all-mpnet-base-v2") ]) ]

/-- The ambient Node environment seen by models.ts: `__dirname`,
`process.cwd()`, `existsSync` and `readFileSync` (the latter returning
`Except.error` when it would throw). -/
structure FileSystem where
  dirname : String
  cwd : String
  exists_at : String → Bool
  read_file : String → Except String String

/-- Node `path.join(a, b)` restricted to what the source needs: the two
call sites join a directory with a relative file path; segment
normalization is irrelevant to the claims and not modelled. -/
def path_join (a b : String) : String := a ++ "/" ++ b

/-- The candidate-path array of `find_models_file` (models.ts lines 9–13),
in source order. -/
def candidate_paths (fs : FileSystem) : List String :=
  [ path_join fs.dirname "../../../models.yml",
    "/app/models.yml",
    path_join fs.cwd "models.yml" ]

/-- A filesystem access performed by the loader: an `existsSync` check or
a `readFileSync`. -/
inductive FsOp where
  | check : String → FsOp
  | read : String → FsOp
deriving DecidableEq, Repr

/-- The `for (const p of paths) if (existsSync(p)) return p` loop,
instrumented with the list of `existsSync` checks it performs. -/
def find_trace : List String → (String → Bool) → Option String × List FsOp
  | [], _ => (none, [])
  | p :: ps, ex =>
      if ex p then (some p, [FsOp.check p])
      else
        let r := find_trace ps ex
        (r.1, FsOp.check p :: r.2)

/-- Embedding of `find_models_file` (models.ts lines 8–18): first candidate path that
exists, else none. -/
def find_models_file (fs : FileSystem) : Option String :=
  (candidate_paths fs).find? fs.exists_at

/-- Outcome of one `load_models()` call: the returned mapping, the state
of the module-level cache cell `cfg` afterwards, and the filesystem
operations performed during the call. -/
structure LoadResult where
  result : model_cfg
  cache : Option model_cfg
  ops : List FsOp
deriving DecidableEq, Repr

/-- Embedding of `load_models` (models.ts lines 20–40).  The module-level cell
`let cfg : model_cfg | null` is passed in explicitly; `if (cfg) return
cfg` is the `some` case (every object, `{}` included, is truthy).  The
`try { readFileSync; parse_yaml } catch { cfg = get_defaults() }` block
is the match on `read_file`: `parse_yaml` itself is total, so the read is
the only throw point inside the try. -/
def load_models (fs : FileSystem) (cache : Option model_cfg) : LoadResult :=
  match cache with
  | some c => ⟨c, some c, []⟩
  | none =>
    match find_trace (candidate_paths fs) fs.exists_at with
    | (none, tr) => ⟨get_defaults, some get_defaults, tr⟩
    | (some p, tr) =>
      match fs.read_file p with
      | Except.ok yml =>
          ⟨parse_yaml yml, some (parse_yaml yml), tr ++ [FsOp.read p]⟩
      | Except.error _ =>
          ⟨get_defaults, some get_defaults, tr ++ [FsOp.read p]⟩

/-- Embedding of `get_model` (models.ts lines 102–109): load (through the cache), then
`cfg[sector]?.[provider] || cfg.semantic?.[provider] || "nomic-embed-text"`.
Returns the model name and the cache cell afterwards. -/
def get_model (fs : FileSystem) (cache : Option model_cfg)
    (sector provider : String) : String × Option model_cfg :=
  let r := load_models fs cache
  (js_or (lookup2 r.result sector provider)
     (js_or (lookup2 r.result "semantic" provider) "nomic-embed-text"),
   r.cache)

/-- Embedding of `get_provider_config` (models.ts lines 111–113): always `{}`. -/
def get_provider_config (_provider : String) : List (String × String) := []

/-- A provider sub-mapping all of whose stored model names are non-empty. -/
def sec_nonempty (sec : List (String × String)) : Bool :=
  sec.all (fun kv => !kv.2.data.isEmpty)

/-- A configuration mapping all of whose stored values are non-empty. -/
def cfg_values_nonempty (m : model_cfg) : Bool :=
  m.all (fun e => sec_nonempty e.2)

/-- Every cache-cell state `load_models` can produce or start from:
empty, or holding a mapping with only non-empty values. -/
def cache_wf : Option model_cfg → Bool
  | none => true
  | some c => cfg_values_nonempty c

/-- A test environment with no config file at any path. -/
def fs_absent : FileSystem :=
  ⟨"/srv/mod", "/srv/cwd", fun _ => false, fun _ => Except.error "ENOENT"⟩

/-- A test environment whose config file holds the single malformed
top-level line `foo: bar`. -/
def fs_badline : FileSystem :=
  ⟨"/srv/mod", "/srv/cwd", fun _ => true, fun _ => Except.ok "foo: bar"⟩

/-- A test environment whose config file exists but whose read throws. -/
def fs_readerr : FileSystem :=
  ⟨"/srv/mod", "/srv/cwd", fun _ => true, fun _ => Except.error "EACCES"⟩

theorem getKey_setKey {α : Type} (m : List (String × α)) (k k2 : String) (v : α) :
    getKey (setKey m k v) k2 = if k = k2 then some v else getKey m k2 := by
  induction m with
  | nil => simp [setKey, getKey]
  | cons a rest ih =>
    obtain ⟨k1, v1⟩ := a
    by_cases h1 : k1 = k
    · subst h1
      simp only [setKey, if_pos rfl, getKey]
      by_cases h2 : k1 = k2
      · subst h2; simp
      · simp [h2]
    · simp only [setKey, if_neg h1, getKey]
      by_cases h2 : k1 = k2
      · subst h2
        have hk : ¬ k = k1 := fun hh => h1 hh.symm
        simp [hk]
      · simp [h2, ih]

theorem getKey_all {α : Type} (p : String × α → Bool) (m : List (String × α))
    (k : String) (v : α) (hall : m.all p = true) (hget : getKey m k = some v) :
    p (k, v) = true := by
  induction m with
  | nil => simp [getKey] at hget
  | cons a rest ih =>
    obtain ⟨k1, v1⟩ := a
    simp only [List.all_cons, Bool.and_eq_true] at hall
    by_cases h : k1 = k
    · subst h
      have hv : v1 = v := by simpa [getKey] using hget
      subst hv
      exact hall.1
    · simp only [getKey, if_neg h] at hget
      exact ih hall.2 hget

theorem all_setKey {α : Type} (p : String × α → Bool) (m : List (String × α))
    (k : String) (v : α) (hall : m.all p = true) (hp : p (k, v) = true) :
    (setKey m k v).all p = true := by
  induction m with
  | nil => simp [setKey, hp]
  | cons a rest ih =>
    obtain ⟨k1, v1⟩ := a
    simp only [List.all_cons, Bool.and_eq_true] at hall
    by_cases h : k1 = k
    · subst h; simp [setKey, hp, hall.2]
    · simp [setKey, h, hall.1, ih hall.2]

theorem find_trace_fst (l : List String) (ex : String → Bool) :
    (find_trace l ex).1 = l.find? ex := by
  induction l with
  | nil => rfl
  | cons p ps ih =>
    cases h : ex p <;> simp [find_trace, List.find?, h, ih]

theorem setSub_wf (m : model_cfg) (sec key val : String)
    (hm : cfg_values_nonempty m = true) (hv : val.data.isEmpty = false) :
    cfg_values_nonempty (setSub m sec key val) = true := by
  apply all_setKey _ _ _ _ hm
  apply all_setKey
  · cases hg : getKey m sec with
    | none => simp [sec_nonempty]
    | some s1 => exact getKey_all _ _ _ _ hm hg
  · simp [hv]

theorem parse_line_wf (st : model_cfg × Option String) (line : String)
    (h : cfg_values_nonempty st.1 = true) :
    cfg_values_nonempty (parse_line st line).1 = true := by
  obtain ⟨obj, cur⟩ := st
  simp only [parse_line]
  split
  · exact h
  split
  · exact h
  split
  · exact h
  split
  · apply all_setKey _ _ _ _ h
    simp [sec_nonempty]
  · cases cur with
    | none => exact h
    | some sec =>
      simp only []
      split
      · next hg =>
        simp only [Bool.and_eq_true, Bool.not_eq_eq_eq_not, Bool.not_true] at hg
        exact setSub_wf _ _ _ _ h hg.2
      · exact h

theorem parse_lines_wf (L : List String) :
    ∀ st : model_cfg × Option String, cfg_values_nonempty st.1 = true →
      cfg_values_nonempty (parse_lines st L).1 = true := by
  induction L with
  | nil => intro st h; exact h
  | cons l L ih =>
    intro st h
    simp only [parse_lines, List.foldl_cons]
    exact ih _ (parse_line_wf st l h)

theorem parse_yaml_wf (yml : String) :
    cfg_values_nonempty (parse_yaml yml) = true :=
  parse_lines_wf _ _ (by decide)

theorem defaults_wf : cfg_values_nonempty get_defaults = true := by decide

theorem load_models_wf (fs : FileSystem) (cache : Option model_cfg)
    (hc : cache_wf cache = true) :
    cfg_values_nonempty (load_models fs cache).result = true := by
  cases cache with
  | some c => exact hc
  | none =>
    rcases hft : find_trace (candidate_paths fs) fs.exists_at with ⟨o, tr⟩
    cases o with
    | none => simp [load_models, hft, defaults_wf]
    | some p =>
      cases hr : fs.read_file p with
      | error e => simp [load_models, hft, hr, defaults_wf]
      | ok yml => simp [load_models, hft, hr, parse_yaml_wf]

theorem load_models_cache_eq (fs : FileSystem) (cache : Option model_cfg) :
    (load_models fs cache).cache = some (load_models fs cache).result := by
  cases cache with
  | some c => rfl
  | none =>
    rcases hft : find_trace (candidate_paths fs) fs.exists_at with ⟨o, tr⟩
    cases o with
    | none => simp [load_models, hft]
    | some p =>
      cases hr : fs.read_file p with
      | error e => simp [load_models, hft, hr]
      | ok yml => simp [load_models, hft, hr]

theorem lookup2_wf (m : model_cfg) (s p v : String)
    (hm : cfg_values_nonempty m = true) (h : lookup2 m s p = some v) :
    v.data.isEmpty = false := by
  unfold lookup2 at h
  cases hk : getKey m s with
  | none => rw [hk] at h; simp at h
  | some sec =>
    rw [hk] at h
    simp only [Option.some_bind] at h
    have h1 := getKey_all _ _ _ _ hm hk
    have h2 := getKey_all _ _ _ _ h1 h
    simpa using h2

theorem js_or_some_ne (v b : String) (hv : v.data.isEmpty = false) :
    js_or (some v) b = v := by
  simp [js_or, hv]

theorem js_or_nonempty (a : Option String) (b : String)
    (hb : b.data.isEmpty = false) : (js_or a b).data.isEmpty = false := by
  cases a with
  | none => exact hb
  | some v =>
    by_cases hv : v.data.isEmpty
    · simp [js_or, hv, hb]
    · simp only [js_or, if_neg hv]
      exact Bool.eq_false_iff.mpr hv

theorem load_models_read_error (fs : FileSystem) (p e : String)
    (hfind : find_models_file fs = some p)
    (hread : fs.read_file p = Except.error e) :
    load_models fs none =
      ⟨get_defaults, some get_defaults,
        (find_trace (candidate_paths fs) fs.exists_at).2 ++ [FsOp.read p]⟩ := by
  have h1 : (find_trace (candidate_paths fs) fs.exists_at).1 = some p := by
    rw [find_trace_fst]; exact hfind
  rcases hft : find_trace (candidate_paths fs) fs.exists_at with ⟨o, tr⟩
  rw [hft] at h1
  change o = some p at h1
  subst h1
  simp [load_models, hft, hread]

/-- A section-header line as authored in the dialect: the name followed
by a colon. -/
def header_line (s : String) : String := s ++ ":"

theorem parse_line_shape (line : String) (c : Option String) :
    (∀ obj : model_cfg, parse_line (obj, c) line = (obj, c)) ∨
    (∃ key, ∀ obj : model_cfg,
        parse_line (obj, c) line = (setKey obj key [], some key)) ∨
    (∃ sec key val, c = some sec ∧ ∀ obj : model_cfg,
        parse_line (obj, c) line = (setSub obj sec key val, c)) := by
  cases h1 : (trim_chars line.data).isEmpty with
  | true => left; intro obj; simp [parse_line, h1]
  | false =>
  cases h2 : starts_hash (trim_chars line.data) with
  | true => left; intro obj; simp [parse_line, h1, h2]
  | false =>
  cases h3 : js_search_nonws line == 0 with
  | false =>
    cases c with
    | none => left; intro obj; simp [parse_line, h1, h2, h3]
    | some sec =>
      cases h4 : (!sec.data.isEmpty &&
          !(trim_chars (List.intercalate [':']
              (split_char ':' (trim_chars line.data)).tail)).isEmpty) with
      | false => left; intro obj; simp [parse_line, h1, h2, h3, h4]
      | true =>
        right; right
        refine ⟨sec, ⟨(split_char ':' (trim_chars line.data)).headD []⟩,
          ⟨trim_chars (List.intercalate [':']
              (split_char ':' (trim_chars line.data)).tail)⟩, rfl, ?_⟩
        intro obj
        simp [parse_line, h1, h2, h3, h4]
  | true =>
    cases h5 : (trim_chars (List.intercalate [':']
        (split_char ':' (trim_chars line.data)).tail)).isEmpty with
    | false => left; intro obj; simp [parse_line, h1, h2, h3, h5]
    | true =>
      right; left
      refine ⟨⟨(split_char ':' (trim_chars line.data)).headD []⟩, ?_⟩
      intro obj
      simp [parse_line, h1, h2, h3, h5]

theorem parse_line_indep (s line : String) (o1 o2 : model_cfg) (c : Option String)
    (h : getKey o1 s = getKey o2 s) :
    (parse_line (o1, c) line).2 = (parse_line (o2, c) line).2
    ∧ getKey (parse_line (o1, c) line).1 s = getKey (parse_line (o2, c) line).1 s := by
  rcases parse_line_shape line c with hs | ⟨key, hs⟩ | ⟨sec, key, val, hc, hs⟩
  · rw [hs o1, hs o2]; exact ⟨rfl, h⟩
  · rw [hs o1, hs o2]
    refine ⟨rfl, ?_⟩
    rw [getKey_setKey, getKey_setKey]
    by_cases hk : key = s
    · simp [hk]
    · simp [hk, h]
  · rw [hs o1, hs o2]
    refine ⟨rfl, ?_⟩
    unfold setSub
    rw [getKey_setKey, getKey_setKey]
    by_cases hk : sec = s
    · subst hk; simp [h]
    · simp [hk, h]

theorem parse_lines_indep (s : String) (L : List String) :
    ∀ (o1 o2 : model_cfg) (c : Option String), getKey o1 s = getKey o2 s →
      getKey (parse_lines (o1, c) L).1 s = getKey (parse_lines (o2, c) L).1 s := by
  induction L with
  | nil => intro o1 o2 c h; exact h
  | cons l L ih =>
    intro o1 o2 c h
    obtain ⟨hsnd, hfst⟩ := parse_line_indep s l o1 o2 c h
    simp only [parse_lines, List.foldl_cons]
    rcases hp1 : parse_line (o1, c) l with ⟨a1, c1⟩
    rcases hp2 : parse_line (o2, c) l with ⟨a2, c2⟩
    rw [hp1, hp2] at hsnd hfst
    change c1 = c2 at hsnd
    change getKey a1 s = getKey a2 s at hfst
    subst hsnd
    exact ih a1 a2 c1 hfst

theorem parse_line_header (obj : model_cfg) (cur : Option String) (s : String)
    (htrim : trim_chars (header_line s).data = (header_line s).data)
    (hhash : starts_hash (header_line s).data = false)
    (hind : js_search_nonws (header_line s) = 0)
    (hsplit : split_char ':' (header_line s).data = [s.data, []]) :
    parse_line (obj, cur) (header_line s) = (setKey obj s [], some s) := by
  have hdata : (header_line s).data = s.data ++ [':'] := rfl
  have hne : ((header_line s).data).isEmpty = false := by
    rw [hdata]
    cases h : s.data ++ [':'] with
    | nil => exact absurd h (by simp)
    | cons a l => rfl
  simp only [parse_line, htrim, hne, hhash, hind, hsplit]
  rfl

/-- The Defaults Table spelled out as (sector, provider, model) triples. -/
def defaults_expect : List (String × String × String) :=
  [ ("episodic", "ollama", "nomic-embed-text"),
    ("episodic", "openai", "text-embedding-3-small"),
    ("episodic", "gemini", "gemini-embedding-001"),
    ("episodic", "aws", "amazon.titan-embed-text-v2:0"),
    ("episodic", "local", "all-MiniLM-L6-v2"),
    ("semantic", "ollama", "nomic-embed-text"),
    ("semantic", "openai", "text-embedding-3-small"),
    ("semantic", "gemini", "gemini-embedding-001"),
    ("semantic", "aws", "amazon.titan-embed-text-v2:0"),
    ("semantic", "local", "all-MiniLM-L6-v2"),
    ("procedural", "ollama", "nomic-embed-text"),
    ("procedural", "openai", "text-embedding-3-small"),
    ("procedural", "gemini", "gemini-embedding-001"),
    ("procedural", "aws", "amazon.titan-embed-text-v2:0"),
    ("procedural", "local", "all-MiniLM-L6-v2"),
    ("emotional", "ollama", "nomic-embed-text"),
    ("emotional", "openai", "text-embedding-3-small"),
    ("emotional", "gemini", "gemini-embedding-001"),
    ("emotional", "aws", "amazon.titan-embed-text-v2:0"),
    ("emotional", "local", "all-MiniLM-L6-v2"),
    ("reflective", "ollama", "nomic-embed-text"),
    ("reflective", "openai", "text-embedding-3-large"),
    ("reflective", "gemini", "gemini-embedding-001"),
    ("reflective", "aws", "amazon.titan-embed-text-v2:0"),
    ("reflective", "local", "all-mpnet-base-v2") ]

/-- C1: for every sector string and provider string, `get_model` returns
the loaded mapping's entry for (sector, provider) if present, otherwise
the mapping's `semantic` entry for the provider if present, otherwise the
literal `"nomic-embed-text"`, applied in exactly this order and
short-circuiting on the first hit.  The hypothesis restricts the starting
cache cell to the states the module can actually be in: empty, or holding
a mapping whose values are all non-empty (every mapping `load_models`
stores is of this shape, by `load_models_wf`). -/
theorem get_model_three_tier (fs : FileSystem) (cache : Option model_cfg)
    (hc : cache_wf cache = true) (sector provider : String) :
    (get_model fs cache sector provider).1 =
      match lookup2 (load_models fs cache).result sector provider with
      | some v => v
      | none =>
        match lookup2 (load_models fs cache).result "semantic" provider with
        | some v => v
        | none => "nomic-embed-text" := by
  have hwf := load_models_wf fs cache hc
  simp only [get_model]
  cases h1 : lookup2 (load_models fs cache).result sector provider with
  | some v => exact js_or_some_ne _ _ (lookup2_wf _ _ _ _ hwf h1)
  | none =>
    cases h2 : lookup2 (load_models fs cache).result "semantic" provider with
    | some v =>
      show js_or (some v) _ = v
      exact js_or_some_ne _ _ (lookup2_wf _ _ _ _ hwf h2)
    | none => rfl

/-- Witness for C1 at a concrete environment, sector and provider. -/
theorem get_model_three_tier_witness :
    (get_model fs_absent none "episodic" "weird").1 =
      match lookup2 (load_models fs_absent none).result "episodic" "weird" with
      | some v => v
      | none =>
        match lookup2 (load_models fs_absent none).result "semantic" "weird" with
        | some v => v
        | none => "nomic-embed-text" :=
  get_model_three_tier fs_absent none (by decide) "episodic" "weird"

/-- C2 counterexample: with a config file present whose content is the
single top-level value line `foo: bar`, `load_models()` returns the empty
mapping — which is not the Defaults Table — because `parse_yaml` skips
the line without failing, so the catch-and-default path is never taken. -/
theorem badline_counterexample :
    (load_models fs_badline none).result = []
    ∧ ¬ ((load_models fs_badline none).result = get_defaults) := by
  exact ⟨by decide, by decide⟩

/-- C2 amended: only a thrown file read yields the Defaults Table: if the
located file's read throws, `load_models()` returns a mapping identical
to the Defaults Table.  A file whose content is a top-level line carrying
a value (`foo: bar`) is parsed successfully to the empty mapping, which
`load_models()` returns as-is — not the Defaults Table and not a
partially-populated mapping. -/
theorem malformed_recovery_amended (fs : FileSystem) (p e : String)
    (hfind : find_models_file fs = some p)
    (hread : fs.read_file p = Except.error e) :
    (load_models fs none).result = get_defaults
    ∧ (load_models fs_badline none).result = parse_yaml "foo: bar"
    ∧ parse_yaml "foo: bar" = [] := by
  refine ⟨?_, by decide, by decide⟩
  rw [load_models_read_error fs p e hfind hread]

/-- Witness for the amended C2 at a concrete environment whose read throws. -/
theorem malformed_recovery_amended_witness :
    (load_models fs_readerr none).result = get_defaults
    ∧ (load_models fs_badline none).result = parse_yaml "foo: bar"
    ∧ parse_yaml "foo: bar" = [] :=
  malformed_recovery_amended fs_readerr (path_join "/srv/mod" "../../../models.yml")
    "EACCES" (by decide) rfl

/-- C3: with no configuration file present, `get_model` returns the
Defaults Table's literal value for each of the 5 built-in sectors crossed
with the 5 built-in providers; `reflective` maps `openai` to the large
variant and `local` to the alternate local variant, and the sub-mappings
of the other four sectors are identical to each other. -/
theorem defaults_complete (fs : FileSystem) (h : ∀ q, fs.exists_at q = false) :
    (defaults_expect.all
        (fun t => (get_model fs none t.1 t.2.1).1 == t.2.2)) = true
    ∧ getKey get_defaults "episodic" = getKey get_defaults "semantic"
    ∧ getKey get_defaults "procedural" = getKey get_defaults "semantic"
    ∧ getKey get_defaults "emotional" = getKey get_defaults "semantic"
    ∧ lookup2 get_defaults "reflective" "openai" = some "text-embedding-3-large"
    ∧ lookup2 get_defaults "reflective" "local" = some "all-mpnet-base-v2" := by
  have hl : load_models fs none =
      ⟨get_defaults, some get_defaults,
        [FsOp.check (path_join fs.dirname "../../../models.yml"),
         FsOp.check "/app/models.yml",
         FsOp.check (path_join fs.cwd "models.yml")]⟩ := by
    simp [load_models, find_trace, candidate_paths, h]
  refine ⟨?_, by decide, by decide, by decide, by decide, by decide⟩
  simp only [defaults_expect, get_model, hl]
  decide

/-- Witness for C3 at a concrete environment with no file anywhere. -/
theorem defaults_complete_witness :
    (defaults_expect.all
        (fun t => (get_model fs_absent none t.1 t.2.1).1 == t.2.2)) = true
    ∧ getKey get_defaults "episodic" = getKey get_defaults "semantic"
    ∧ getKey get_defaults "procedural" = getKey get_defaults "semantic"
    ∧ getKey get_defaults "emotional" = getKey get_defaults "semantic"
    ∧ lookup2 get_defaults "reflective" "openai" = some "text-embedding-3-large"
    ∧ lookup2 get_defaults "reflective" "local" = some "all-mpnet-base-v2" :=
  defaults_complete fs_absent (fun _ => rfl)

/-- C4: `parse_yaml` on the five-line example produces exactly the
mapping with `semantic ↦ openai ↦ custom-model-A` and
`episodic ↦ local ↦ custom-model-B`, with no entry for the comment line;
and interspersing blank and whitespace-only lines leaves the result
unchanged (blank lines and `#`-comment lines are skipped). -/
theorem parse_yaml_example :
    parse_yaml
        "semantic:\n  openai: custom-model-A\n# comment line\nepisodic:\n  local: custom-model-B"
      = [("semantic", [("openai", "custom-model-A")]),
         ("episodic", [("local", "custom-model-B")])]
    ∧ parse_yaml
        "\nsemantic:\n   \n  openai: custom-model-A\n# comment line\n\nepisodic:\n  local: custom-model-B\n"
      = [("semantic", [("openai", "custom-model-A")]),
         ("episodic", [("local", "custom-model-B")])] :=
  ⟨by decide, by decide⟩

/-- C5: `load_models` is idempotent after the first call: starting from
any cache state, a second call returns the same mapping, leaves the cache
unchanged, and performs no filesystem operation at all; a populated cache
cell is returned immediately with no I/O. -/
theorem load_models_idempotent (fs : FileSystem) (cache : Option model_cfg) :
    (load_models fs (load_models fs cache).cache).result
        = (load_models fs cache).result
    ∧ (load_models fs (load_models fs cache).cache).cache
        = (load_models fs cache).cache
    ∧ (load_models fs (load_models fs cache).cache).ops = []
    ∧ ∀ c : model_cfg, load_models fs (some c) = ⟨c, some c, []⟩ := by
  rw [load_models_cache_eq fs cache]
  exact ⟨rfl, rfl, rfl, fun c => rfl⟩

/-- C6: no exception escapes the loader: the only throwing primitive in
the try block is the file read, and when it throws the error is caught,
the cache is populated with the Defaults Table, the Defaults Table is
returned, and `get_model` proceeds normally on it (parsing itself is a
total function and never fails). -/
theorem read_error_no_escape (fs : FileSystem) (p e : String)
    (hfind : find_models_file fs = some p)
    (hread : fs.read_file p = Except.error e) :
    (load_models fs none).result = get_defaults
    ∧ (load_models fs none).cache = some get_defaults
    ∧ ∀ sector provider : String,
        (get_model fs none sector provider).1 =
          js_or (lookup2 get_defaults sector provider)
            (js_or (lookup2 get_defaults "semantic" provider) "nomic-embed-text") := by
  have hl := load_models_read_error fs p e hfind hread
  refine ⟨by rw [hl], by rw [hl], ?_⟩
  intro sector provider
  simp only [get_model, hl]

/-- Witness for C6 at a concrete environment whose read throws. -/
theorem read_error_no_escape_witness :
    (load_models fs_readerr none).result = get_defaults
    ∧ (load_models fs_readerr none).cache = some get_defaults
    ∧ ∀ sector provider : String,
        (get_model fs_readerr none sector provider).1 =
          js_or (lookup2 get_defaults sector provider)
            (js_or (lookup2 get_defaults "semantic" provider) "nomic-embed-text") :=
  read_error_no_escape fs_readerr (path_join "/srv/mod" "../../../models.yml")
    "EACCES" (by decide) rfl

/-- C7: `find_models_file` checks exactly three candidate paths in fixed
priority order — `__dirname`-relative three levels up, the absolute
`/app/models.yml`, then `models.yml` under the working directory — and
returns the first that exists, or none when all three are absent. -/
theorem find_models_file_order (fs : FileSystem) :
    candidate_paths fs =
      [ path_join fs.dirname "../../../models.yml",
        "/app/models.yml",
        path_join fs.cwd "models.yml" ]
    ∧ find_models_file fs =
        (if fs.exists_at (path_join fs.dirname "../../../models.yml") = true
         then some (path_join fs.dirname "../../../models.yml")
         else if fs.exists_at "/app/models.yml" = true
         then some "/app/models.yml"
         else if fs.exists_at (path_join fs.cwd "models.yml") = true
         then some (path_join fs.cwd "models.yml")
         else none) := by
  refine ⟨rfl, ?_⟩
  simp only [find_models_file, candidate_paths]
  cases h1 : fs.exists_at (path_join fs.dirname "../../../models.yml") <;>
    cases h2 : fs.exists_at "/app/models.yml" <;>
      cases h3 : fs.exists_at (path_join fs.cwd "models.yml") <;>
        simp [List.find?, h1, h2, h3]

/-- C8: `get_provider_config` returns the empty configuration object for
every provider string. -/
theorem provider_config_empty (provider : String) :
    get_provider_config provider = [] := rfl

/-- C9: a second occurrence of a section header at indentation 0 resets
that section to an empty mapping: processing a header line for section
`s` from any parser state and continuing with any further lines yields,
for section `s`, exactly what a fresh start from `s ↦ {}` yields — so
entries recorded under an earlier occurrence of `s` and not re-listed
afterwards are absent.  The hypotheses say that `s ++ ":"` really is a
plain header line (no surrounding whitespace, not a comment, indentation
0, and a single colon so the split yields an empty value).  The second
conjunct is the concrete instance: re-opening section `a` drops its
earlier `x` entry. -/
theorem duplicate_header_resets (obj : model_cfg) (cur : Option String)
    (s : String) (L : List String)
    (htrim : trim_chars (header_line s).data = (header_line s).data)
    (hhash : starts_hash (header_line s).data = false)
    (hind : js_search_nonws (header_line s) = 0)
    (hsplit : split_char ':' (header_line s).data = [s.data, []]) :
    getKey (parse_lines (parse_line (obj, cur) (header_line s)) L).1 s
      = getKey (parse_lines ([(s, [])], some s) L).1 s
    ∧ parse_yaml "a:\n  x: one\na:\n  y: two" = [("a", [("y", "two")])] := by
  refine ⟨?_, by decide⟩
  rw [parse_line_header obj cur s htrim hhash hind hsplit]
  apply parse_lines_indep
  rw [getKey_setKey]
  simp [getKey]

/-- Witness for C9: re-opening section `a` after it already holds an `x`
entry, then recording `y`, gives the same `a`-section as a fresh start. -/
theorem duplicate_header_resets_witness :
    getKey (parse_lines (parse_line ([("a", [("x", "one")])], some "a")
        (header_line "a")) ["  y: two"]).1 "a"
      = getKey (parse_lines ([("a", [])], some "a") ["  y: two"]).1 "a"
    ∧ parse_yaml "a:\n  x: one\na:\n  y: two" = [("a", [("y", "two")])] :=
  duplicate_header_resets [("a", [("x", "one")])] (some "a") "a" ["  y: two"]
    (by decide) (by decide) (by decide) (by decide)

/-- C10: every value stored in a mapping produced by `parse_yaml` is a
non-empty string, and `get_model` returns a non-empty string for every
sector and provider under every cache state. -/
theorem values_nonempty (yml : String) (fs : FileSystem)
    (cache : Option model_cfg) (sector provider : String) :
    cfg_values_nonempty (parse_yaml yml) = true
    ∧ (get_model fs cache sector provider).1.data.isEmpty = false := by
  refine ⟨parse_yaml_wf yml, ?_⟩
  simp only [get_model]
  exact js_or_nonempty _ _ (js_or_nonempty _ _ (by decide))

end Models
